import Mathlib

/-!
Verification of `Preporcessing.py` (class `DataPreprocessor`).

Numeric values are floating-point in the source; here finite values are
modeled exactly as rationals, NaN and the two infinities as explicit
constructors, so every statement below is about the algorithm the source
implements, not about IEEE rounding error.
-/

namespace DataPreprocessor

/-- A NumPy scalar as accepted by `traditional_round`: NaN, one of the two
infinities, or a finite number (modeled exactly as a rational). -/
inductive Scalar
  | nan
  | posInf
  | negInf
  | finite (x : ℚ)
deriving DecidableEq, Repr

/-- The value returned by `traditional_round`: a Python int, a float, or one
of the textual infinity sentinels. -/
inductive RoundResult
  | int (n : ℤ)
  | float (q : ℚ)
  | str (s : String)
deriving DecidableEq, Repr

/-- True on the numeric constructors of `RoundResult`, false on the string
sentinel. -/
def RoundResult.isNumeric : RoundResult → Bool
  | .int _ => true
  | .float _ => true
  | .str _ => false

/-- True exactly on the floating-point constructor of `RoundResult`. -/
def RoundResult.isFloat : RoundResult → Bool
  | .float _ => true
  | _ => false

/-- Truncation toward zero, as Python `int()` applied to a float: floor for
nonnegative arguments, ceiling for negative ones. -/
def truncToward0 (q : ℚ) : ℤ :=
  if 0 ≤ q then ⌊q⌋ else ⌈q⌉

/-- `DataPreprocessor.traditional_round` (src/Preporcessing.py lines 9-32).
NaN returns the int 0; infinities return the sentinel strings; a finite value
is scaled by `10 ^ decimals`, has 0.5 added (nonnegative case) or subtracted
(negative case) before floor resp. ceiling, is scaled back, and is finally
passed through Python `int()` when `decimals = 0`. -/
def traditional_round (value : Scalar) (decimals : ℕ) : RoundResult :=
  match value with
  | .nan => .int 0
  | .posInf => .str "∞"
  | .negInf => .str "-∞"
  | .finite x =>
      let factor : ℚ := 10 ^ decimals
      let adjusted_value : ℚ := x * factor
      let rounded_value : ℤ :=
        if 0 ≤ adjusted_value then ⌊adjusted_value + 1/2⌋
        else ⌈adjusted_value - 1/2⌉
      let result : ℚ := (rounded_value : ℚ) / factor
      if decimals = 0 then .int (truncToward0 result) else .float result

/-- Round half away from zero as the spec glossary words it: the nearest
integer, exact halves going to the neighbour of greater magnitude,
independent of sign. -/
def roundHalfAwayFromZero (x : ℚ) : ℤ :=
  if 0 ≤ x then ⌊x + 1/2⌋ else -⌊-x + 1/2⌋

/-- One float64 array entry: `none` models NaN, `some q` a finite value
(modeled exactly as a rational). -/
abbrev FloatEntry := Option ℚ

/-- The finite (non-NaN) entries of an array, in order: what the `nan`-aware
NumPy reductions and `nan_policy="omit"` operate on. -/
def nonNanEntries (l : List FloatEntry) : List ℚ :=
  l.filterMap id

/-- `np.nanmean`: the mean of the non-NaN entries. -/
def nanmean (l : List FloatEntry) : ℚ :=
  (nonNanEntries l).sum / (nonNanEntries l).length

/-- `np.nanmedian`: sort the non-NaN entries ascending; the middle entry for
odd count, the average of the two middle entries for even count. -/
def nanmedian (l : List FloatEntry) : ℚ :=
  let s := (nonNanEntries l).insertionSort (· ≤ ·)
  let n := s.length
  if n % 2 = 1 then s.getD (n / 2) 0
  else (s.getD (n / 2 - 1) 0 + s.getD (n / 2) 0) / 2

/-- `scipy.stats.mode` over the non-NaN entries (`nan_policy="omit"`): the
smallest value of maximal multiplicity, 0 on an empty list (never exposed by
`data_imputation`, which falls back to the replacement in that case). -/
def scipyMode (xs : List ℚ) : ℚ :=
  match xs with
  | [] => 0
  | h :: _ =>
      xs.foldl (fun b x =>
        if xs.count b < xs.count x ∨ (xs.count x = xs.count b ∧ x < b) then x
        else b) h

/-- The final statement `arr[np.isnan(arr)] = value` of `data_imputation` on
a working copy: every NaN slot receives the fill value (itself possibly NaN),
every finite slot is untouched. -/
def fillMissing (l : List FloatEntry) (v : FloatEntry) : List FloatEntry :=
  l.map fun x =>
    match x with
    | some q => some q
    | none => v

/-- `DataPreprocessor.data_imputation` (src/Preporcessing.py lines 35-71).
An empty array returns the one-element array holding the replacement before
the method string is examined; otherwise the fill value is the nan-aware
mean / median / mode when at least one entry is finite, the replacement when
all are NaN, and an unrecognized method raises ValueError (modeled as
`Except.error`; the Python message text carries quotes, elided here). -/
def data_imputation (value : List FloatEntry) (replacement : FloatEntry)
    (method : String) : Except String (List FloatEntry) :=
  if value = [] then .ok [replacement]
  else if method = "Mean" then
    .ok (fillMissing value
      (if nonNanEntries value ≠ [] then some (nanmean value) else replacement))
  else if method = "Median" then
    .ok (fillMissing value
      (if nonNanEntries value ≠ [] then some (nanmedian value) else replacement))
  else if method = "Mode" then
    .ok (fillMissing value
      (if nonNanEntries value ≠ [] then some (scipyMode (nonNanEntries value))
       else replacement))
  else .error "Invalid method. Choose Mean, Median, or Mode."

/-- `np.min` on a non-empty array; the 0 returned on `[]` is never exposed,
as `data_normalization` reports the NumPy zero-size reduction error there. -/
def listMin : List ℚ → ℚ
  | [] => 0
  | x :: xs => xs.foldl min x

/-- `np.max` on a non-empty array; the 0 returned on `[]` is never exposed. -/
def listMax : List ℚ → ℚ
  | [] => 0
  | x :: xs => xs.foldl max x

/-- `np.mean`: the arithmetic mean (0 on `[]`, where NumPy yields NaN; the
empty z-score output is the empty array either way). -/
def listMean (l : List ℚ) : ℚ :=
  l.sum / l.length

/-- The population variance `np.std(arr) ** 2` (ddof = 0), an exact
rational. -/
def listVar (l : List ℚ) : ℚ :=
  (l.map (fun x => (x - listMean l) ^ 2)).sum / l.length

/-- `np.std`: the square root of the population variance. -/
noncomputable def listStd (l : List ℚ) : ℝ :=
  Real.sqrt (listVar l)

/-- The max-min branch of `data_normalization` (lines 88-97): zeros when the
range is zero, otherwise `(x - min) / (max - min)` entrywise. -/
def maxmin_normalize (l : List ℚ) : List ℚ :=
  let range_value := listMax l - listMin l
  if range_value = 0 then List.replicate l.length 0
  else l.map fun x => (x - listMin l) / range_value

/-- The z-score branch of `data_normalization` (lines 99-107): zeros when
the standard deviation is zero, otherwise `(x - mean) / std` entrywise. -/
noncomputable def zscore_normalize (l : List ℚ) : List ℝ :=
  if listStd l = 0 then List.replicate l.length (0 : ℝ)
  else l.map fun x : ℚ => ((x : ℝ) - (listMean l : ℝ)) / listStd l

/-- The `shift_value` of the log branch (line 111): `abs(min) + 1` when the
minimum is ≤ 0, else 0. -/
def log_shift (l : List ℚ) : ℚ :=
  if listMin l ≤ 0 then |listMin l| + 1 else 0

/-- The log branch of `data_normalization` (lines 109-113): shift every
entry by `log_shift`, then apply `log1p`, i.e. `log (1 + x)`. -/
noncomputable def log_normalize (l : List ℚ) : List ℝ :=
  (l.map fun x : ℚ => x + log_shift l).map fun q : ℚ => Real.log (1 + (q : ℝ))

/-- `DataPreprocessor.data_normalization` (src/Preporcessing.py lines
74-116). The method dispatch happens on the already-built array; on the
empty array the max-min and log branches hit the NumPy zero-size reduction
error inside `np.min` / `np.max`, while the z-score branch returns the empty
array (NumPy: NaN mean and std, empty quotient array). An unrecognized
method raises ValueError (the Python message text carries quotes, elided
here). -/
noncomputable def data_normalization (value : List ℚ) (method : String) :
    Except String (List ℝ) :=
  if method = "max-min" then
    if value = [] then .error "zero-size array to reduction operation"
    else .ok ((maxmin_normalize value).map fun q : ℚ => (q : ℝ))
  else if method = "z-score" then .ok (zscore_normalize value)
  else if method = "log" then
    if value = [] then .error "zero-size array to reduction operation"
    else .ok (log_normalize value)
  else .error "Invalid method. Choose max-min, z-score, or log."

lemma truncToward0_intCast (n : ℤ) : truncToward0 (n : ℚ) = n := by
  unfold truncToward0
  split <;> simp

lemma truncToward0_neg_intCast (n : ℤ) : truncToward0 (-(n : ℚ)) = -n := by
  rw [← Int.cast_neg, truncToward0_intCast]

lemma abs_sub_floor_add_half_le (x : ℚ) : |x - ⌊x + 1/2⌋| ≤ 1/2 := by
  rw [abs_sub_le_iff]
  constructor
  · have h := Int.lt_floor_add_one (x + 1/2)
    linarith
  · have h := Int.floor_le (x + 1/2)
    linarith

lemma floor_add_half_eq_of_tie (x : ℚ) (h : |x - ⌊x + 1/2⌋| = 1/2) :
    (⌊x + 1/2⌋ : ℚ) = x + 1/2 := by
  have h1 := Int.lt_floor_add_one (x + 1/2)
  have h2 := Int.floor_le (x + 1/2)
  rcases (abs_eq (by norm_num : (0:ℚ) ≤ 1/2)).mp h with h3 | h3
  · linarith
  · linarith

lemma roundHalfAwayFromZero_near (x : ℚ) :
    |x - roundHalfAwayFromZero x| ≤ 1/2 := by
  unfold roundHalfAwayFromZero
  by_cases hx : 0 ≤ x
  · rw [if_pos hx]
    exact abs_sub_floor_add_half_le x
  · rw [if_neg hx]
    have heq : x - (((-⌊-x + 1/2⌋ : ℤ) : ℚ)) = -((-x) - (⌊-x + 1/2⌋ : ℚ)) := by
      push_cast
      ring
    rw [heq, abs_neg]
    exact abs_sub_floor_add_half_le (-x)

lemma roundHalfAwayFromZero_tie (x : ℚ)
    (h : |x - roundHalfAwayFromZero x| = 1/2) :
    |(roundHalfAwayFromZero x : ℚ)| = |x| + 1/2 := by
  unfold roundHalfAwayFromZero at h ⊢
  by_cases hx : 0 ≤ x
  · rw [if_pos hx] at h ⊢
    have htie := floor_add_half_eq_of_tie x h
    rw [htie, abs_of_nonneg (by linarith : (0:ℚ) ≤ x + 1/2), abs_of_nonneg hx]
  · rw [if_neg hx] at h ⊢
    push_neg at hx
    have h2 : |(-x) - ⌊-x + 1/2⌋| = 1/2 := by
      have heq : x - (((-⌊-x + 1/2⌋ : ℤ) : ℚ)) = -((-x) - (⌊-x + 1/2⌋ : ℚ)) := by
        push_cast
        ring
      rw [heq, abs_neg] at h
      exact h
    have htie := floor_add_half_eq_of_tie (-x) h2
    push_cast
    rw [htie, abs_neg, abs_of_pos (by linarith : (0:ℚ) < -x + 1/2), abs_of_neg hx]

lemma nonNanEntries_eq_nil_of_all_none (l : List FloatEntry)
    (h : ∀ x ∈ l, x = none) : nonNanEntries l = [] := by
  induction l with
  | nil => rfl
  | cons a t ih =>
      have ha : a = none := h a (by simp)
      have ht : ∀ x ∈ t, x = none := fun x hx => h x (by simp [hx])
      have ih2 := ih ht
      simp [nonNanEntries, List.filterMap_cons, ha] at ih2 ⊢
      exact ih2

lemma fillMissing_all_none (l : List FloatEntry) (v : FloatEntry)
    (h : ∀ x ∈ l, x = none) :
    fillMissing l v = List.replicate l.length v := by
  induction l with
  | nil => rfl
  | cons a t ih =>
      have ha : a = none := h a (by simp)
      have ht : ∀ x ∈ t, x = none := fun x hx => h x (by simp [hx])
      simp [fillMissing, ha, List.replicate_succ] at ih ⊢
      exact ih ht

lemma foldl_min_le (xs : List ℚ) (a : ℚ) : xs.foldl min a ≤ a := by
  induction xs generalizing a with
  | nil => simp
  | cons y ys ih => exact le_trans (ih (min a y)) (min_le_left a y)

lemma foldl_min_le_mem :
    ∀ (xs : List ℚ) (x : ℚ), x ∈ xs → ∀ a : ℚ, xs.foldl min a ≤ x
  | [], x, hx, _ => absurd hx (List.not_mem_nil x)
  | y :: ys, x, hx, a => by
      rcases List.mem_cons.mp hx with h | h
      · subst h
        exact le_trans (foldl_min_le ys (min a x)) (min_le_right a x)
      · exact foldl_min_le_mem ys x h (min a y)

lemma le_foldl_max (xs : List ℚ) (a : ℚ) : a ≤ xs.foldl max a := by
  induction xs generalizing a with
  | nil => simp
  | cons y ys ih => exact le_trans (le_max_left a y) (ih (max a y))

lemma le_foldl_max_mem :
    ∀ (xs : List ℚ) (x : ℚ), x ∈ xs → ∀ a : ℚ, x ≤ xs.foldl max a
  | [], x, hx, _ => absurd hx (List.not_mem_nil x)
  | y :: ys, x, hx, a => by
      rcases List.mem_cons.mp hx with h | h
      · subst h
        exact le_trans (le_max_right a x) (le_foldl_max ys (max a x))
      · exact le_foldl_max_mem ys x h (max a y)

lemma listMin_le_of_mem (l : List ℚ) (x : ℚ) (hx : x ∈ l) : listMin l ≤ x := by
  match l with
  | y :: ys =>
      rcases List.mem_cons.mp hx with h | h
      · subst h
        exact foldl_min_le ys x
      · exact foldl_min_le_mem ys x h y

lemma le_listMax_of_mem (l : List ℚ) (x : ℚ) (hx : x ∈ l) : x ≤ listMax l := by
  match l with
  | y :: ys =>
      rcases List.mem_cons.mp hx with h | h
      · subst h
        exact le_foldl_max ys x
      · exact le_foldl_max_mem ys x h y

/-- C1: with `decimals = 0`, `traditional_round` on a finite scalar returns
the round-half-away-from-zero integer nearest the input: the result is an
integer within 1/2 of the input, and an exact half rounds to the value of
greater magnitude, independent of sign. -/
theorem claim_C1_round_half_away_from_zero (x : ℚ) :
    traditional_round (.finite x) 0 = .int (roundHalfAwayFromZero x) ∧
    |x - roundHalfAwayFromZero x| ≤ 1/2 ∧
    (|x - roundHalfAwayFromZero x| = 1/2 →
      |(roundHalfAwayFromZero x : ℚ)| = |x| + 1/2) := by
  refine ⟨?_, roundHalfAwayFromZero_near x, roundHalfAwayFromZero_tie x⟩
  by_cases hx : 0 ≤ x
  · simp [traditional_round, roundHalfAwayFromZero, truncToward0_intCast, hx]
  · have hceil : ⌈x - (2⁻¹ : ℚ)⌉ = -⌊-x + (2⁻¹ : ℚ)⌋ := by
      have h2 : -x + (2⁻¹ : ℚ) = -(x - 2⁻¹) := by ring
      rw [h2, Int.floor_neg, neg_neg]
    simp [traditional_round, roundHalfAwayFromZero, truncToward0_intCast,
      truncToward0_neg_intCast, hx, hceil]

/-- C1 witness at the exact half `x = 5/2` of the spec example
`round(2.5) = 3`. -/
theorem claim_C1_witness :
    traditional_round (.finite (5/2 : ℚ)) 0 =
      .int (roundHalfAwayFromZero (5/2 : ℚ)) ∧
    |(5/2 : ℚ) - roundHalfAwayFromZero (5/2 : ℚ)| = 1/2 ∧
    |(roundHalfAwayFromZero (5/2 : ℚ) : ℚ)| = |(5/2 : ℚ)| + 1/2 :=
  ⟨(claim_C1_round_half_away_from_zero (5/2 : ℚ)).1,
    by norm_num [roundHalfAwayFromZero],
    (claim_C1_round_half_away_from_zero (5/2 : ℚ)).2.2
      (by norm_num [roundHalfAwayFromZero])⟩

/-- C2: `traditional_round` is total — NaN maps to the int 0, positive
infinity to the string sentinel for infinity, negative infinity to the
negative sentinel, and every finite input yields a numeric result. -/
theorem claim_C2_total_defined (d : ℕ) :
    traditional_round .nan d = .int 0 ∧
    traditional_round .posInf d = .str "∞" ∧
    traditional_round .negInf d = .str "-∞" ∧
    ∀ x : ℚ, (traditional_round (.finite x) d).isNumeric = true := by
  refine ⟨rfl, rfl, rfl, fun x => ?_⟩
  unfold traditional_round
  by_cases hd : d = 0 <;> simp [hd, RoundResult.isNumeric]

/-- C9 fails as stated: a NaN input with `decimals = 1` returns the integer
0, not a floating-point value. -/
theorem claim_C9_counterexample :
    traditional_round .nan 1 = .int 0 ∧
    (traditional_round .nan 1).isFloat = false :=
  ⟨rfl, rfl⟩

/-- C9 amended to finite inputs: on a finite scalar, `decimals = 0` yields
an integer result and any positive `decimals` yields a floating-point
result. -/
theorem claim_C9_amended_finite_output_types (x : ℚ) (d : ℕ) :
    (∃ n : ℤ, traditional_round (.finite x) 0 = .int n) ∧
    (∃ q : ℚ, traditional_round (.finite x) (d + 1) = .float q) :=
  ⟨⟨_, rfl⟩, ⟨_, rfl⟩⟩

/-- C3: on a non-empty array whose entries are all NaN, each of the three
methods returns an array of the same length with every slot holding the
caller-supplied replacement value. -/
theorem claim_C3_all_missing_uses_replacement (l : List FloatEntry) (r : ℚ)
    (m : String) (hne : l ≠ []) (hall : ∀ x ∈ l, x = none)
    (hm : m = "Mean" ∨ m = "Median" ∨ m = "Mode") :
    data_imputation l (some r) m = .ok (List.replicate l.length (some r)) := by
  have hnn := nonNanEntries_eq_nil_of_all_none l hall
  have hfill := fillMissing_all_none l (some r) hall
  rcases hm with hm | hm | hm <;>
    simp [data_imputation, hne, hm, hnn, hfill]

/-- C3 witness at the spec example `impute([NaN, NaN], replacement=9,
method="Mean") = [9, 9]`. -/
theorem claim_C3_witness :
    data_imputation [none, none] (some 9) "Mean" =
      .ok (List.replicate ([none, none] : List FloatEntry).length (some 9)) :=
  claim_C3_all_missing_uses_replacement [none, none] 9 "Mean" (by decide)
    (by decide) (Or.inl rfl)

/-- C7: for a non-empty array and a recognized method, imputation returns an
array of the same length in which every finite entry is exactly the input
entry at the same index (the source mutates only a fresh working copy built
by `np.array`, so the embedding is a pure function of the input). -/
theorem claim_C7_preserves_non_missing (l : List FloatEntry)
    (rep : FloatEntry) (m : String) (hne : l ≠ [])
    (hm : m = "Mean" ∨ m = "Median" ∨ m = "Mode") :
    ∃ out, data_imputation l rep m = .ok out ∧
      out.length = l.length ∧
      ∀ (i : ℕ) (q : ℚ), l[i]? = some (some q) → out[i]? = some (some q) := by
  have hkey : ∀ v : FloatEntry,
      (fillMissing l v).length = l.length ∧
      ∀ (i : ℕ) (q : ℚ), l[i]? = some (some q) →
        (fillMissing l v)[i]? = some (some q) := by
    intro v
    constructor
    · simp [fillMissing]
    · intro i q hi
      simp [fillMissing, List.getElem?_map, hi]
  rcases hm with hm | hm | hm
  · subst hm
    exact ⟨fillMissing l
        (if nonNanEntries l ≠ [] then some (nanmean l) else rep),
      by simp [data_imputation, hne], (hkey _).1, (hkey _).2⟩
  · subst hm
    exact ⟨fillMissing l
        (if nonNanEntries l ≠ [] then some (nanmedian l) else rep),
      by simp [data_imputation, hne], (hkey _).1, (hkey _).2⟩
  · subst hm
    exact ⟨fillMissing l
        (if nonNanEntries l ≠ [] then some (scipyMode (nonNanEntries l)) else rep),
      by simp [data_imputation, hne], (hkey _).1, (hkey _).2⟩

/-- C7 witness at `l = [1, NaN]` with method Mean. -/
theorem claim_C7_witness :
    ∃ out, data_imputation [some 1, none] (some 0) "Mean" = .ok out ∧
      out.length = ([some 1, none] : List FloatEntry).length ∧
      ∀ (i : ℕ) (q : ℚ), ([some 1, none] : List FloatEntry)[i]? = some (some q) →
        out[i]? = some (some q) :=
  claim_C7_preserves_non_missing [some 1, none] (some 0) "Mean" (by decide)
    (Or.inl rfl)

/-- C8: the empty array returns the one-element array holding the
caller-supplied replacement, for every method string, and never an error:
the emptiness check precedes the method dispatch. -/
theorem claim_C8_empty_returns_replacement (rep : FloatEntry) (m : String) :
    data_imputation [] rep m = .ok [rep] := by
  simp [data_imputation]

/-- C4: on a non-empty array, the max-min branch returns
`(x - min) / (max - min)` entrywise except that a zero range yields all
zeros, and the z-score branch returns `(x - mean) / std` entrywise except
that a zero standard deviation yields all zeros. -/
theorem claim_C4_maxmin_zscore_formulas (l : List ℚ) (hne : l ≠ []) :
    data_normalization l "max-min" =
      .ok (if listMax l = listMin l then List.replicate l.length (0 : ℝ)
        else l.map fun x : ℚ =>
          ((x : ℝ) - (listMin l : ℝ)) / ((listMax l : ℝ) - (listMin l : ℝ))) ∧
    data_normalization l "z-score" =
      .ok (if listStd l = 0 then List.replicate l.length (0 : ℝ)
        else l.map fun x : ℚ => ((x : ℝ) - (listMean l : ℝ)) / listStd l) := by
  constructor
  · rw [data_normalization, if_pos rfl, if_neg hne]
    by_cases heq : listMax l = listMin l
    · simp only [maxmin_normalize]
      rw [if_pos (sub_eq_zero.mpr heq), if_pos heq, List.map_replicate]
      norm_num
    · have hsub : listMax l - listMin l ≠ 0 := sub_ne_zero.mpr heq
      simp only [maxmin_normalize]
      rw [if_neg hsub, if_neg heq, List.map_map]
      congr 1
      refine List.map_congr_left fun x hx => ?_
      simp only [Function.comp_apply]
      push_cast
      rfl
  · rfl

/-- C4 witness at `l = [1, 2, 3]`. -/
theorem claim_C4_witness :
    data_normalization [1, 2, 3] "max-min" =
      .ok (if listMax [1, 2, 3] = listMin [1, 2, 3]
        then List.replicate ([1, 2, 3] : List ℚ).length (0 : ℝ)
        else ([1, 2, 3] : List ℚ).map fun x : ℚ =>
          ((x : ℝ) - (listMin [1, 2, 3] : ℝ)) /
            ((listMax [1, 2, 3] : ℝ) - (listMin [1, 2, 3] : ℝ))) ∧
    data_normalization [1, 2, 3] "z-score" =
      .ok (if listStd [1, 2, 3] = 0
        then List.replicate ([1, 2, 3] : List ℚ).length (0 : ℝ)
        else ([1, 2, 3] : List ℚ).map fun x : ℚ =>
          ((x : ℝ) - (listMean [1, 2, 3] : ℝ)) / listStd [1, 2, 3]) :=
  claim_C4_maxmin_zscore_formulas [1, 2, 3] (by decide)

/-- C5: on a non-empty array, the log branch shifts every entry by
`|min| + 1` when the minimum is ≤ 0 and by 0 otherwise, and every shifted
value handed to `log1p` is strictly positive (hence ≥ 0). -/
theorem claim_C5_log_shift_positive (l : List ℚ) (hne : l ≠ []) :
    data_normalization l "log" =
      .ok ((l.map fun x : ℚ => x + log_shift l).map
        fun q : ℚ => Real.log (1 + (q : ℝ))) ∧
    log_shift l = (if listMin l ≤ 0 then |listMin l| + 1 else 0) ∧
    ∀ x ∈ l, 0 < x + log_shift l := by
  refine ⟨by simp [data_normalization, hne, log_normalize], rfl, ?_⟩
  intro x hx
  have hmin := listMin_le_of_mem l x hx
  unfold log_shift
  by_cases h0 : listMin l ≤ 0
  · rw [if_pos h0, abs_of_nonpos h0]
    linarith
  · rw [if_neg h0]
    push_neg at h0
    linarith

/-- C5 witness at the spec example `normalize([-2, -1, 0], method="log")`,
whose shift is `|-2| + 1 = 3`. -/
theorem claim_C5_witness :
    data_normalization [-2, -1, 0] "log" =
      .ok ((([-2, -1, 0] : List ℚ).map fun x : ℚ => x + log_shift [-2, -1, 0]).map
        fun q : ℚ => Real.log (1 + (q : ℝ))) ∧
    log_shift [-2, -1, 0] =
      (if listMin [-2, -1, 0] ≤ 0 then |listMin [-2, -1, 0]| + 1 else 0) ∧
    ∀ x ∈ ([-2, -1, 0] : List ℚ), 0 < x + log_shift [-2, -1, 0] :=
  claim_C5_log_shift_positive [-2, -1, 0] (by decide)

/-- C6 fails as stated for `data_imputation`: on the empty array the
emptiness check precedes the method dispatch, so even the unrecognized
method string Bogus returns the one-element replacement array instead of
raising ValueError. -/
theorem claim_C6_counterexample :
    data_imputation [] (some 5) "Bogus" = .ok [some 5] := by
  simp [data_imputation]

/-- C6 amended: an unrecognized method string raises ValueError in
`data_imputation` whenever the input array is non-empty (the empty array
short-circuits to the replacement array first), and in `data_normalization`
for every input array. -/
theorem claim_C6_amended_unknown_method_errors :
    (∀ (l : List FloatEntry) (rep : FloatEntry) (m : String),
      l ≠ [] → m ≠ "Mean" → m ≠ "Median" → m ≠ "Mode" →
      ∃ e, data_imputation l rep m = .error e) ∧
    (∀ (l : List ℚ) (m : String),
      m ≠ "max-min" → m ≠ "z-score" → m ≠ "log" →
      ∃ e, data_normalization l m = .error e) := by
  constructor
  · intro l rep m hne h1 h2 h3
    refine ⟨"Invalid method. Choose Mean, Median, or Mode.", ?_⟩
    rw [data_imputation, if_neg hne, if_neg h1, if_neg h2, if_neg h3]
  · intro l m h1 h2 h3
    refine ⟨"Invalid method. Choose max-min, z-score, or log.", ?_⟩
    rw [data_normalization, if_neg h1, if_neg h2, if_neg h3]

/-- C6 witness: the method string Bogus errors on a non-empty imputation
input and on a normalization input. -/
theorem claim_C6_witness :
    (∃ e, data_imputation [some 1] (some 0) "Bogus" = .error e) ∧
    (∃ e, data_normalization [1] "Bogus" = .error e) :=
  ⟨claim_C6_amended_unknown_method_errors.1 [some 1] (some 0) "Bogus"
      (by decide) (by decide) (by decide) (by decide),
    claim_C6_amended_unknown_method_errors.2 [1] "Bogus"
      (by decide) (by decide) (by decide)⟩

/-- C10: on a non-empty array with distinct max and min, every max-min
normalized entry lies in [0, 1]; entries equal to the minimum map to 0 and
entries equal to the maximum map to 1, index for index. -/
theorem claim_C10_maxmin_in_unit_interval (l : List ℚ) (hne : l ≠ [])
    (hmm : listMax l ≠ listMin l) :
    ∃ r : List ℝ, data_normalization l "max-min" = .ok r ∧
      r.length = l.length ∧
      ∀ (i : ℕ) (x : ℚ), l[i]? = some x →
        ∃ y : ℝ, r[i]? = some y ∧ 0 ≤ y ∧ y ≤ 1 ∧
          (x = listMin l → y = 0) ∧ (x = listMax l → y = 1) := by
  have hle : listMin l ≤ listMax l := by
    match l, hne with
    | y :: ys, _ =>
        exact le_trans (listMin_le_of_mem (y :: ys) y (by simp))
          (le_listMax_of_mem (y :: ys) y (by simp))
  have hlt : listMin l < listMax l := lt_of_le_of_ne hle (Ne.symm hmm)
  have hpos : 0 < listMax l - listMin l := by linarith
  have hsub : listMax l - listMin l ≠ 0 := ne_of_gt hpos
  refine ⟨(maxmin_normalize l).map fun q : ℚ => (q : ℝ), ?_, ?_, ?_⟩
  · rw [data_normalization, if_pos rfl, if_neg hne]
  · rw [List.length_map]
    simp only [maxmin_normalize]
    rw [if_neg hsub, List.length_map]
  · intro i x hi
    have hmem : x ∈ l := List.getElem?_mem hi
    have hq0 : 0 ≤ (x - listMin l) / (listMax l - listMin l) :=
      div_nonneg (by linarith [listMin_le_of_mem l x hmem]) (le_of_lt hpos)
    have hq1 : (x - listMin l) / (listMax l - listMin l) ≤ 1 := by
      rw [div_le_one hpos]
      linarith [le_listMax_of_mem l x hmem]
    refine ⟨(((x - listMin l) / (listMax l - listMin l) : ℚ) : ℝ),
      ?_, ?_, ?_, ?_, ?_⟩
    · simp only [maxmin_normalize]
      rw [if_neg hsub, List.map_map, List.getElem?_map, hi]
      rfl
    · exact_mod_cast hq0
    · exact_mod_cast hq1
    · intro hxmin
      subst hxmin
      simp
    · intro hxmax
      subst hxmax
      rw [div_self hsub]
      norm_num

/-- C10 witness at `l = [1, 2, 3]`. -/
theorem claim_C10_witness :
    ∃ r : List ℝ, data_normalization [1, 2, 3] "max-min" = .ok r ∧
      r.length = ([1, 2, 3] : List ℚ).length ∧
      ∀ (i : ℕ) (x : ℚ), ([1, 2, 3] : List ℚ)[i]? = some x →
        ∃ y : ℝ, r[i]? = some y ∧ 0 ≤ y ∧ y ≤ 1 ∧
          (x = listMin [1, 2, 3] → y = 0) ∧ (x = listMax [1, 2, 3] → y = 1) :=
  claim_C10_maxmin_in_unit_interval [1, 2, 3] (by decide) (by decide)

end DataPreprocessor
